import Mathlib

/-!
Verification of the weekly-planner estimate-extraction engine
(`src/lib/time_estimator.py`) against its specification.

The Python class `TimeEstimator` is shallowly embedded here.  External
collaborators are modelled abstractly, exactly as the spec scopes them:

* configuration loading (`load_config` / YAML) is a black box that yields the
  `weekly_planner` block: an optional list of pattern strings and two optional
  integers — modelled by `WeeklyPlannerConfig`;
* the regular-expression engine (`re`) is a black box: a compiled pattern is
  modelled by its observable behaviour on `pattern.search(text)` followed by
  `match.group(1)`, namely a function `String → Option Capture`
  (`none` = no match anywhere in the text; `Capture.group s` = group 1
  matched the text `s`; `Capture.absent` = group 1 did not participate,
  i.e. Python's `match.group(1)` returned `None`);
* Python exceptions are modelled with `Except PyError`: `int()` on a
  non-numeric string raises `ValueError`, `int(None)` and `dict(non-mapping)`
  raise `TypeError`.

Machine integers do not overflow in Python, so hour counts are plain `Int`.
-/

namespace WeeklyPlanner

/-- Python exceptions that the embedded code can raise. -/
inductive PyError
  | valueError
  | typeError
deriving DecidableEq, Repr

/-- Observable result of `match.group(1)` on a successful `pattern.search`:
either the text captured by group 1, or Python `None` when the group did not
participate in the match. -/
inductive Capture
  | group (s : String)
  | absent
deriving DecidableEq, Repr

/-- A compiled regular expression, reduced to its observable behaviour:
given the text, either no match anywhere (`none`) or the outcome of
`match.group(1)` for the first match found by `search`. -/
abbrev PatternFn := String → Option Capture

/-- A Python value as it can appear in an issue-record field.  `str` renders
values for the `str(body)` coercion in `batch_extract`; lists render their
elements with `repr`, as Python does. -/
inductive PyValue
  | none
  | str (s : String)
  | int (n : Int)
  | list (xs : List PyValue)

/-- ASCII single-quote, the character Python `repr` wraps strings in. -/
def pyQuote : String := String.singleton (Char.ofNat 39)

mutual

/-- Python `repr` for the modelled values (string escaping is not modelled;
the strings used here contain no quotes or backslashes). -/
def pyRepr : PyValue → String
  | .none => "None"
  | .str s => pyQuote ++ s ++ pyQuote
  | .int n => toString n
  | .list xs => "[" ++ pyReprList xs ++ "]"

/-- Comma-separated `repr`s of a list's elements, as inside Python's
`str(list)` rendering. -/
def pyReprList : List PyValue → String
  | [] => ""
  | [x] => pyRepr x
  | x :: y :: rest => pyRepr x ++ ", " ++ pyReprList (y :: rest)

end

/-- Python `str()` for the modelled values: identity on strings, `repr`-based
rendering everywhere else (matching CPython for `None`, ints and lists). -/
def pyStr : PyValue → String
  | .str s => s
  | v => pyRepr v

/-- Python `str.strip()` with no argument: remove whitespace from both ends.
(Implemented over the character list so that it evaluates inside the kernel;
`String.trim` has the same behaviour on the ASCII whitespace used here.) -/
def pyStrip (s : String) : String :=
  String.mk (((s.toList.dropWhile Char.isWhitespace).reverse.dropWhile Char.isWhitespace).reverse)

/-- Python `int(s)` on a string: optional surrounding whitespace, an optional
sign, then decimal digits; anything else raises `ValueError` (`none` here).
(Underscore digit-grouping, accepted by CPython, is not modelled; no captured
group in this development contains an underscore.) -/
def parsePyInt (s : String) : Option Int :=
  let t := (pyStrip s).toList
  let signAndDigits : Int × List Char :=
    match t with
    | c :: rest => if c = '-' then (-1, rest) else if c = '+' then (1, rest) else (1, t)
    | [] => (1, [])
  let sign := signAndDigits.1
  let digits := signAndDigits.2
  if digits ≠ [] ∧ digits.all Char.isDigit then
    some (sign * (digits.foldl (fun acc c => acc * 10 + (Int.ofNat (c.toNat - 48))) 0))
  else
    Option.none

/-- The `weekly_planner` block of the parsed configuration, as the estimator
consumes it: each key optional, mirroring `weekly_config.get(key, fallback)`.
Configuration file I/O and YAML parsing are external collaborators. -/
structure WeeklyPlannerConfig where
  estimate_patterns : Option (List String)
  default_estimate_hours : Option Int
  max_estimate_hours : Option Int

/-- The estimator's state after `__init__`: compiled patterns in configured
order and the two bounds.  (`_pattern_strings` is also stored by the source
but never read again; it is omitted.) -/
structure TimeEstimator where
  patterns : List PatternFn
  default_hours : Int
  max_hours : Int

/-- Embedding of `TimeEstimator.__init__` after `load_config` has returned:

    self._pattern_strings = list(weekly_config.get("estimate_patterns", []))
    self._patterns = [re.compile(pattern) for pattern in self._pattern_strings]
    self._default_hours = int(weekly_config.get("default_estimate_hours", 1))
    self._max_hours = int(weekly_config.get("max_estimate_hours", 8))

`compile` stands for `re.compile`.  Note the source performs no comparison of
the two bounds and defines no `ConfigurationError`; construction is a total
function of the supplied configuration. -/
def TimeEstimator.init (compile : String → PatternFn) (weekly_config : WeeklyPlannerConfig) :
    TimeEstimator where
  patterns := (weekly_config.estimate_patterns.getD []).map compile
  default_hours := weekly_config.default_estimate_hours.getD 1
  max_hours := weekly_config.max_estimate_hours.getD 8

/-- The `for pattern in self._patterns` loop's search phase: result of the
first pattern whose `search` matches, `none` when every pattern misses
(`continue` on `not match`). -/
def searchFirst (ps : List PatternFn) (body : String) : Option Capture :=
  match ps with
  | [] => Option.none
  | p :: rest =>
    match p body with
    | Option.some cap => Option.some cap
    | Option.none => searchFirst rest body

/-- The loop body once a pattern has matched:

    raw_value = match.group(1)
    hours = abs(int(raw_value))
    if hours == 0:
        return self._default_hours
    return min(hours, self._max_hours)

`int(raw_value)` raises `ValueError` on a non-numeric capture and `TypeError`
when `group(1)` is `None`; neither is caught by the source. -/
def applyCapture (default_hours max_hours : Int) (cap : Capture) : Except PyError Int :=
  match cap with
  | .absent => .error .typeError
  | .group raw_value =>
    match parsePyInt raw_value with
    | Option.none => .error .valueError
    | Option.some v =>
      let hours : Int := Int.ofNat v.natAbs
      if hours = 0 then .ok default_hours
      else .ok (min hours max_hours)

/-- Embedding of `TimeEstimator.extract_estimate`.  `issue_body = none` is
Python `None`; the result is `Except` because the unguarded `int()` call can
raise. -/
def TimeEstimator.extract_estimate (e : TimeEstimator) (issue_body : Option String) :
    Except PyError Int :=
  match issue_body with
  | Option.none => .ok e.default_hours
  | Option.some body =>
    let normalized_body := pyStrip body
    if normalized_body.isEmpty then .ok e.default_hours
    else
      match searchFirst e.patterns normalized_body with
      | Option.none => .ok e.default_hours
      | Option.some cap => applyCapture e.default_hours e.max_hours cap

/-- One element of the iterable handed to `batch_extract`: either a dict
(an issue record, modelled as an association list in insertion order with
unique keys) or some non-dict Python value. -/
inductive Entry
  | dict (fields : List (String × PyValue))
  | nonDict (v : PyValue)

/-- Embedding of `issue.get("body") if isinstance(issue, dict) else None`.
Python's `.get` returns `None` for a missing key, indistinguishable from a
stored `None`, hence the `getD .none`. -/
def pyGetBody (issue : Entry) : PyValue :=
  match issue with
  | .dict fields => (fields.lookup "body").getD .none
  | .nonDict _ => .none

/-- Embedding of `body if isinstance(body, str) or body is None else str(body)`:
the argument actually passed to `extract_estimate` for a record. -/
def coerceBody (body : PyValue) : Option String :=
  match body with
  | .str s => Option.some s
  | .none => Option.none
  | v => Option.some (pyStr v)

/-- Embedding of `dict(issue)`.  On a dict this is a shallow copy; on the
non-mapping scalars modelled here (numbers, `None`, nested lists of such)
CPython raises (`TypeError` for non-iterables; the error for iterables of
non-pairs is likewise fatal and is folded into the same constructor). -/
def dictCopy (issue : Entry) : Except PyError (List (String × PyValue)) :=
  match issue with
  | .dict fields => .ok fields
  | .nonDict _ => .error .typeError

/-- Embedding of `enriched_issue["estimated_hours"] = estimated` on a dict:
an existing key keeps its position and gets the new value; a new key is
appended, preserving insertion order. -/
def dictSet (fields : List (String × PyValue)) (k : String) (v : PyValue) :
    List (String × PyValue) :=
  match fields with
  | [] => [(k, v)]
  | (k1, v1) :: rest =>
    if k1 = k then (k1, v) :: rest else (k1, v1) :: dictSet rest k v

/-- Embedding of `TimeEstimator.batch_extract`:

    results = []
    for issue in issues:
        body = issue.get("body") if isinstance(issue, dict) else None
        estimated = self.extract_estimate(body if isinstance(body, str) or body is None else str(body))
        enriched_issue = dict(issue)
        enriched_issue["estimated_hours"] = estimated
        results.append(enriched_issue)
    return results

An exception raised while processing any entry aborts the whole call, as in
Python; the per-entry evaluation order (extract first, then `dict(issue)`)
is preserved. -/
def TimeEstimator.batch_extract (e : TimeEstimator) :
    List Entry → Except PyError (List (List (String × PyValue)))
  | [] => .ok []
  | issue :: rest =>
    match e.extract_estimate (coerceBody (pyGetBody issue)) with
    | .error err => .error err
    | .ok estimated =>
      match dictCopy issue with
      | .error err => .error err
      | .ok enriched_issue =>
        match e.batch_extract rest with
        | .error err => .error err
        | .ok results =>
          .ok (dictSet enriched_issue "estimated_hours" (.int estimated) :: results)

/-!
Concrete compiled patterns, used to instantiate counterexamples and
witnesses.  The repository's `config.yaml` (which holds the deployed pattern
strings) is outside `src/`, and the regex engine is an external collaborator,
so these are possible compiled patterns — small executable matchers with the
observable behaviour `re` would give the corresponding regexes on the inputs
used below.
-/

/-- Search for the literal `pre`, then optional spaces, then a non-empty
digit run, anywhere in the text; capture the digit run.  Models
`re.search` with a pattern such as `Estimate:\s*(\d+)` (case-sensitive,
`\s` reduced to the space character — enough for the texts used here). -/
def digitsAfterAux (pre : List Char) : List Char → Option String
  | [] => Option.none
  | c :: cs =>
    if pre.isPrefixOf (c :: cs) then
      let rest := ((c :: cs).drop pre.length).dropWhile (fun ch => ch = ' ')
      let ds := rest.takeWhile Char.isDigit
      if ds.isEmpty then digitsAfterAux pre cs else Option.some (String.mk ds)
    else digitsAfterAux pre cs

/-- A compiled pattern capturing the digits after a literal prefix. -/
def digitCapture (pre : String) : PatternFn :=
  fun s => (digitsAfterAux pre.toList s.toList).map Capture.group

/-- Search for the literal `pre`, then optional spaces, then a non-empty
alphabetic run, anywhere in the text; capture the letters.  Models
`re.search` with a pattern such as `code:\s*([A-Za-z]+)` — a configured
pattern whose capture is not numeric. -/
def alphaAfterAux (pre : List Char) : List Char → Option String
  | [] => Option.none
  | c :: cs =>
    if pre.isPrefixOf (c :: cs) then
      let rest := ((c :: cs).drop pre.length).dropWhile (fun ch => ch = ' ')
      let ws := rest.takeWhile Char.isAlpha
      if ws.isEmpty then alphaAfterAux pre cs else Option.some (String.mk ws)
    else alphaAfterAux pre cs

/-- A compiled pattern capturing the alphabetic run after a literal prefix. -/
def alphaCapture (pre : String) : PatternFn :=
  fun s => (alphaAfterAux pre.toList s.toList).map Capture.group

/-!
Example estimators used in counterexamples and witnesses.  `estI` has the
canonical bounds (default 1, max 8); `estD3` has `defaultHours = 3`;
`estAlpha` has a first pattern with a non-numeric capture; `estTwo` has two
digit patterns, so that two patterns can match one text.
-/

/-- An estimator with one digit pattern and the canonical bounds 1 and 8. -/
def estI : TimeEstimator := ⟨[digitCapture "Estimate:"], 1, 8⟩

/-- An estimator with one digit pattern, `defaultHours = 3`, `maxHours = 8`. -/
def estD3 : TimeEstimator := ⟨[digitCapture "Estimate:"], 3, 8⟩

/-- An estimator whose first pattern captures letters, with a digit pattern
after it, bounds 1 and 8. -/
def estAlpha : TimeEstimator := ⟨[alphaCapture "code:", digitCapture "Estimate:"], 1, 8⟩

/-- An estimator with two digit patterns, bounds 1 and 8. -/
def estTwo : TimeEstimator := ⟨[digitCapture "Estimate:", digitCapture "Time:"], 1, 8⟩

/-! Helper lemmas about the embedded operations. -/

lemma extract_estimate_some_of_empty (e : TimeEstimator) (body : String)
    (hb : (pyStrip body).isEmpty = true) :
    e.extract_estimate (Option.some body) = .ok e.default_hours := by
  simp only [TimeEstimator.extract_estimate, hb, if_true]

lemma extract_estimate_some_of_ne_empty (e : TimeEstimator) (body : String)
    (hb : (pyStrip body).isEmpty = false) :
    e.extract_estimate (Option.some body) =
      match searchFirst e.patterns (pyStrip body) with
      | Option.none => .ok e.default_hours
      | Option.some cap => applyCapture e.default_hours e.max_hours cap := by
  simp only [TimeEstimator.extract_estimate, hb, Bool.false_eq_true, if_false]

lemma searchFirst_eq_none (ps : List PatternFn) (b : String)
    (h : ∀ p ∈ ps, p b = Option.none) : searchFirst ps b = Option.none := by
  induction ps with
  | nil => rfl
  | cons p rest ih =>
    simp only [searchFirst]
    rw [h p (List.mem_cons_self _ _)]
    exact ih fun q hq => h q (List.mem_cons_of_mem _ hq)

lemma searchFirst_append_of_match (ps qs : List PatternFn) (p : PatternFn) (b : String)
    (cap : Capture) (hmiss : ∀ q ∈ ps, q b = Option.none)
    (hp : p b = Option.some cap) :
    searchFirst (ps ++ p :: qs) b = Option.some cap := by
  induction ps with
  | nil => simp only [List.nil_append, searchFirst]; rw [hp]
  | cons q rest ih =>
    simp only [List.cons_append, searchFirst]
    rw [hmiss q (List.mem_cons_self _ _)]
    exact ih fun q2 hq2 => hmiss q2 (List.mem_cons_of_mem _ hq2)

lemma applyCapture_ok_range (d m : Int) (cap : Capture) (r : Int)
    (h : applyCapture d m cap = .ok r) :
    r = d ∨ (min 1 m ≤ r ∧ r ≤ m) := by
  match cap with
  | Capture.absent => exact absurd h (by simp [applyCapture])
  | Capture.group raw =>
    cases hp : parsePyInt raw with
    | none => exact absurd h (by simp [applyCapture, hp])
    | some v =>
      simp only [applyCapture, hp] at h
      by_cases hz : (Int.ofNat v.natAbs) = 0
      · rw [if_pos hz] at h
        exact Or.inl (Except.ok.inj h).symm
      · rw [if_neg hz] at h
        have hr : r = min (Int.ofNat v.natAbs) m := (Except.ok.inj h).symm
        refine Or.inr ⟨?_, ?_⟩
        · have h1 : (1 : Int) ≤ Int.ofNat v.natAbs := by
            rw [Int.ofNat_eq_coe] at hz ⊢
            omega
          exact hr ▸ le_trans (min_le_min h1 (le_refl m)) (le_refl _)
        · exact hr ▸ min_le_right _ _

lemma extract_ok_range (e : TimeEstimator) (b : Option String) (r : Int)
    (h : e.extract_estimate b = .ok r) :
    r = e.default_hours ∨ (min 1 e.max_hours ≤ r ∧ r ≤ e.max_hours) := by
  match b with
  | Option.none =>
    exact Or.inl (Except.ok.inj h).symm
  | Option.some body =>
    by_cases hb : (pyStrip body).isEmpty
    · rw [extract_estimate_some_of_empty e body hb] at h
      exact Or.inl (Except.ok.inj h).symm
    · rw [extract_estimate_some_of_ne_empty e body (Bool.not_eq_true _ ▸ hb)] at h
      cases hsf : searchFirst e.patterns (pyStrip body) with
      | none => rw [hsf] at h; exact Or.inl (Except.ok.inj h).symm
      | some cap => rw [hsf] at h; exact applyCapture_ok_range _ _ _ _ h

lemma lookup_dictSet_self (fields : List (String × PyValue)) (k : String) (v : PyValue) :
    (dictSet fields k v).lookup k = Option.some v := by
  induction fields with
  | nil => simp [dictSet, List.lookup]
  | cons kv rest ih =>
    obtain ⟨k1, v1⟩ := kv
    by_cases hk : k1 = k
    · simp [dictSet, hk, List.lookup]
    · have hb : (k == k1) = false := beq_eq_false_iff_ne.mpr (Ne.symm hk)
      simp only [dictSet, if_neg hk, List.lookup, hb]
      exact ih

lemma lookup_dictSet_ne (fields : List (String × PyValue)) (k k2 : String) (v : PyValue)
    (hne : k2 ≠ k) :
    (dictSet fields k v).lookup k2 = fields.lookup k2 := by
  induction fields with
  | nil =>
    have hb : (k2 == k) = false := beq_eq_false_iff_ne.mpr hne
    simp [dictSet, List.lookup, hb]
  | cons kv rest ih =>
    obtain ⟨k1, v1⟩ := kv
    by_cases hk : k1 = k
    · subst hk
      have hb : (k2 == k1) = false := beq_eq_false_iff_ne.mpr hne
      simp only [dictSet, if_pos rfl, List.lookup, hb]
    · simp only [dictSet, if_neg hk, List.lookup]
      by_cases hk2 : k2 = k1
      · have hb : (k2 == k1) = true := beq_iff_eq.mpr hk2
        simp only [hb]
      · have hb : (k2 == k1) = false := beq_eq_false_iff_ne.mpr hk2
        simp only [hb]
        exact ih

/-!
Claim theorems.
-/

/-- C1, counterexample.  The claim says construction raises a
`ConfigurationError` when `defaultHours > maxHours`.  The source `__init__`
contains no comparison of the two bounds and no `ConfigurationError`
anywhere: with `default_estimate_hours = 5` and `max_estimate_hours = 2`
construction succeeds, stores the invariant-violating bounds, and the
resulting estimator operates normally. -/
theorem c1_counterexample :
    (TimeEstimator.init digitCapture
      ⟨Option.some [], Option.some 5, Option.some 2⟩).default_hours = 5 ∧
    (TimeEstimator.init digitCapture
      ⟨Option.some [], Option.some 5, Option.some 2⟩).max_hours = 2 ∧
    (TimeEstimator.init digitCapture
      ⟨Option.some [], Option.some 5, Option.some 2⟩).extract_estimate Option.none = .ok 5 :=
  ⟨rfl, rfl, rfl⟩

/-- C1, amended: construction never validates the bounds and never raises a
`ConfigurationError`; for every configuration — including every one with
`maxHours < defaultHours` — construction succeeds, stores the configured
bounds unchanged, and yields a working estimator. -/
theorem c1_amended (compile : String → PatternFn) (pattern_strings : List String)
    (d m : Int) (_hdm : m < d) :
    (TimeEstimator.init compile
      ⟨Option.some pattern_strings, Option.some d, Option.some m⟩).default_hours = d ∧
    (TimeEstimator.init compile
      ⟨Option.some pattern_strings, Option.some d, Option.some m⟩).max_hours = m ∧
    (TimeEstimator.init compile
      ⟨Option.some pattern_strings, Option.some d, Option.some m⟩).extract_estimate
        Option.none = .ok d :=
  ⟨rfl, rfl, rfl⟩

/-- C1, witness for the amended theorem at `d = 5`, `m = 2`. -/
theorem c1_amended_witness :
    (TimeEstimator.init digitCapture
      ⟨Option.some [], Option.some 5, Option.some 2⟩).default_hours = 5 :=
  (c1_amended digitCapture [] 5 2 (by decide)).1

/-- C2, counterexample.  With `defaultHours = 3`, `maxHours = 8` and a text
whose first matching pattern captures `2`, `extract_estimate` returns `2` —
not `min (max 2 3) 8 = 3` as the claim states — and `2` lies outside the
claimed interval `[defaultHours, maxHours] = [3, 8]`. -/
theorem c2_counterexample :
    estD3.extract_estimate (Option.some "Estimate: 2 hours") = .ok 2 ∧
    (2 : Int) ≠ min (max 2 estD3.default_hours) estD3.max_hours ∧
    ¬(estD3.default_hours ≤ (2 : Int)) :=
  ⟨rfl, by decide, by decide⟩

/-- C2, amended: for every text whose first matching pattern captures a
non-zero value `v`, `extract_estimate` returns `min |v| maxHours` — there is
no lower clamp at `defaultHours`; consequently every successful result is
either `defaultHours` or a value in `[min 1 maxHours, maxHours]` (so the
claimed interval `[defaultHours, maxHours]` is only guaranteed when
`defaultHours ≤ 1 ≤ maxHours`, as in the built-in configuration). -/
theorem c2_amended (e : TimeEstimator) (ps qs : List PatternFn) (p : PatternFn)
    (body s : String) (v : Int)
    (hpat : e.patterns = ps ++ p :: qs)
    (hne : (pyStrip body).isEmpty = false)
    (hmiss : ∀ q ∈ ps, q (pyStrip body) = Option.none)
    (hmatch : p (pyStrip body) = Option.some (Capture.group s))
    (hparse : parsePyInt s = Option.some v)
    (hnz : v ≠ 0) :
    e.extract_estimate (Option.some body) = .ok (min (Int.ofNat v.natAbs) e.max_hours) ∧
    ∀ (b : Option String) (r : Int), e.extract_estimate b = .ok r →
      r = e.default_hours ∨ (min 1 e.max_hours ≤ r ∧ r ≤ e.max_hours) := by
  refine ⟨?_, fun b r h => extract_ok_range e b r h⟩
  rw [extract_estimate_some_of_ne_empty e body hne, hpat,
    searchFirst_append_of_match ps qs p _ _ hmiss hmatch]
  have hz : (Int.ofNat v.natAbs) ≠ 0 := by
    rw [Int.ofNat_eq_coe]
    omega
  simp only [applyCapture, hparse, if_neg hz]

/-- C2, witness for the amended theorem: `estD3` on "Estimate: 2 hours"
returns `min |2| 8 = 2`. -/
theorem c2_amended_witness :
    estD3.extract_estimate (Option.some "Estimate: 2 hours") =
      .ok (min (Int.ofNat (Int.natAbs 2)) estD3.max_hours) :=
  (c2_amended estD3 [] [] (digitCapture "Estimate:") "Estimate: 2 hours" "2" 2
    rfl rfl (by simp) rfl rfl (by decide)).1

/-- C3, counterexample.  The claim says a failed integer parse of a captured
group makes the algorithm skip to the next pattern and that `extract` never
raises.  The source calls `abs(int(raw_value))` with no exception handler:
in `estAlpha` the first pattern captures "abc", so the call raises
`ValueError` — even though the second pattern would have matched the same
text and produced 4, as the second conjunct shows. -/
theorem c3_counterexample :
    estAlpha.extract_estimate (Option.some "code: abc Estimate: 4 hours") =
      .error .valueError ∧
    estI.extract_estimate (Option.some "code: abc Estimate: 4 hours") = .ok 4 :=
  ⟨rfl, rfl⟩

/-- C3, amended: when the first matching pattern's captured group does not
parse as an integer, `extract_estimate` raises a `ValueError` (the
`int(raw_value)` call is unguarded); the remaining patterns are never
consulted.  With digit-only capture groups, as in the canonical patterns,
this case cannot arise. -/
theorem c3_amended (e : TimeEstimator) (ps qs : List PatternFn) (p : PatternFn)
    (body s : String)
    (hpat : e.patterns = ps ++ p :: qs)
    (hne : (pyStrip body).isEmpty = false)
    (hmiss : ∀ q ∈ ps, q (pyStrip body) = Option.none)
    (hmatch : p (pyStrip body) = Option.some (Capture.group s))
    (hparse : parsePyInt s = Option.none) :
    e.extract_estimate (Option.some body) = .error .valueError := by
  rw [extract_estimate_some_of_ne_empty e body hne, hpat,
    searchFirst_append_of_match ps qs p _ _ hmiss hmatch]
  simp only [applyCapture, hparse]

/-- C3, witness for the amended theorem: `estAlpha` raises on "code: abc". -/
theorem c3_amended_witness :
    estAlpha.extract_estimate (Option.some "code: abc") = .error .valueError :=
  c3_amended estAlpha [] [digitCapture "Estimate:"] (alphaCapture "code:")
    "code: abc" "abc" rfl rfl (by simp) rfl rfl

/-- C4, counterexample.  The claim says missing configuration keys fall back
to a built-in non-empty set of five canonical patterns so the estimator
still extracts estimates.  The source falls back to the empty list
(`weekly_config.get("estimate_patterns", [])`): with every key missing the
estimator has zero patterns (not five) and returns the default even for the
canonical text "Estimate: 3 hours". -/
theorem c4_counterexample :
    (TimeEstimator.init digitCapture
      ⟨Option.none, Option.none, Option.none⟩).patterns.length = 0 ∧
    (TimeEstimator.init digitCapture
      ⟨Option.none, Option.none, Option.none⟩).extract_estimate
        (Option.some "Estimate: 3 hours") = .ok 1 :=
  ⟨rfl, rfl⟩

/-- C4, amended: when configuration keys are missing, construction falls
back to `defaultHours = 1`, `maxHours = 8` and the empty pattern list — not
to any built-in patterns; an estimator built without external configuration
therefore returns `defaultHours` for every input. -/
theorem c4_amended (compile : String → PatternFn) :
    (TimeEstimator.init compile ⟨Option.none, Option.none, Option.none⟩).patterns = [] ∧
    (TimeEstimator.init compile ⟨Option.none, Option.none, Option.none⟩).default_hours = 1 ∧
    (TimeEstimator.init compile ⟨Option.none, Option.none, Option.none⟩).max_hours = 8 ∧
    ∀ b : Option String,
      (TimeEstimator.init compile ⟨Option.none, Option.none, Option.none⟩).extract_estimate b =
        .ok 1 := by
  refine ⟨rfl, rfl, rfl, fun b => ?_⟩
  match b with
  | Option.none => rfl
  | Option.some body =>
    by_cases hb : (pyStrip body).isEmpty
    · exact extract_estimate_some_of_empty _ body hb
    · rw [extract_estimate_some_of_ne_empty _ body (Bool.not_eq_true _ ▸ hb)]
      rfl

/-- C5, code bug.  The claim (and the spec) say non-record entries are
skipped or ignored and never make the batch fail, and the source's own
`isinstance(issue, dict)` guard shows that intent — but two lines later the
unconditional `dict(issue)` raises `TypeError` on the same non-dict entry,
aborting the whole batch.  First conjunct: the failing input `[5]`.  Second
conjunct: for dict records the claimed degradation does hold (a record with
no usable text gets the default instead of raising). -/
theorem c5_failing_input :
    estI.batch_extract [Entry.nonDict (PyValue.int 5)] = .error .typeError ∧
    estI.batch_extract [Entry.dict [("number", PyValue.int 1)]] =
      .ok [[("number", PyValue.int 1), ("estimated_hours", PyValue.int 1)]] :=
  ⟨rfl, rfl⟩

/-- C6, counterexample.  The claim says a record whose text field holds a
non-text value is treated exactly like absent text (yielding
`defaultHours`).  The source instead converts the value with `str()` and
runs extraction on the rendering: a `body` holding the list
`["Estimate: 3 hours"]` renders as `['Estimate: 3 hours']`, the first
pattern matches inside it, and the record is enriched with 3, not the
default 1. -/
theorem c6_counterexample :
    estI.batch_extract
        [Entry.dict [("body", PyValue.list [PyValue.str "Estimate: 3 hours"])]] =
      .ok [[("body", PyValue.list [PyValue.str "Estimate: 3 hours"]),
            ("estimated_hours", PyValue.int 3)]] ∧
    estI.default_hours = 1 ∧ (3 : Int) ≠ 1 :=
  ⟨rfl, rfl, by decide⟩

/-- C6, amended: a record whose `body` is missing or `None` is enriched with
`defaultHours`, exactly like absent text; a record whose `body` holds any
other non-string value is enriched with the result of `extract` applied to
the `str()` rendering of that value — which need not be the default. -/
theorem c6_amended (e : TimeEstimator) (fields : List (String × PyValue)) :
    ((fields.lookup "body" = Option.none ∨ fields.lookup "body" = Option.some PyValue.none) →
      e.batch_extract [Entry.dict fields] =
        .ok [dictSet fields "estimated_hours" (PyValue.int e.default_hours)]) ∧
    (∀ (v : PyValue) (n : Int),
      fields.lookup "body" = Option.some v →
      (∀ s, v ≠ PyValue.str s) → v ≠ PyValue.none →
      e.extract_estimate (Option.some (pyStr v)) = .ok n →
      e.batch_extract [Entry.dict fields] =
        .ok [dictSet fields "estimated_hours" (PyValue.int n)]) := by
  constructor
  · intro h
    have harg : coerceBody (pyGetBody (Entry.dict fields)) = Option.none := by
      rcases h with h | h <;> simp [pyGetBody, coerceBody, h]
    simp [TimeEstimator.batch_extract, harg, TimeEstimator.extract_estimate, dictCopy]
  · intro v n hv hvs hvn hx
    have harg : coerceBody (pyGetBody (Entry.dict fields)) = Option.some (pyStr v) := by
      match v with
      | PyValue.none => exact absurd rfl hvn
      | PyValue.str s => exact absurd rfl (hvs s)
      | PyValue.int k => simp [pyGetBody, coerceBody, hv]
      | PyValue.list xs => simp [pyGetBody, coerceBody, hv]
    simp [TimeEstimator.batch_extract, harg, hx, dictCopy]

/-- C6, witness for the amended theorem, second part: the list-valued body
of the counterexample record is `str()`-converted and extracted as 3. -/
theorem c6_amended_witness :
    estI.batch_extract
        [Entry.dict [("body", PyValue.list [PyValue.str "Estimate: 3 hours"])]] =
      .ok [dictSet [("body", PyValue.list [PyValue.str "Estimate: 3 hours"])]
            "estimated_hours" (PyValue.int 3)] :=
  (c6_amended estI [("body", PyValue.list [PyValue.str "Estimate: 3 hours"])]).2
    (PyValue.list [PyValue.str "Estimate: 3 hours"]) 3 rfl
    (fun _ h => PyValue.noConfusion h) (fun h => PyValue.noConfusion h) rfl

/-- C7: extract is first-match-wins over the configured pattern order.  If
every pattern before `p` misses the (stripped) text and `p` matches with
capture `cap`, the result is computed solely from `cap` — and an estimator
`e2` with the same bounds, the same preceding patterns and `p`, but an
arbitrary different tail of later patterns, returns exactly the same
result. -/
theorem c7_first_match_wins (e e2 : TimeEstimator) (ps qs qs2 : List PatternFn)
    (p : PatternFn) (body : String) (cap : Capture)
    (hp1 : e.patterns = ps ++ p :: qs)
    (hp2 : e2.patterns = ps ++ p :: qs2)
    (hd : e2.default_hours = e.default_hours)
    (hm : e2.max_hours = e.max_hours)
    (hne : (pyStrip body).isEmpty = false)
    (hmiss : ∀ q ∈ ps, q (pyStrip body) = Option.none)
    (hmatch : p (pyStrip body) = Option.some cap) :
    e.extract_estimate (Option.some body) =
      applyCapture e.default_hours e.max_hours cap ∧
    e2.extract_estimate (Option.some body) = e.extract_estimate (Option.some body) := by
  have h1 : e.extract_estimate (Option.some body) =
      applyCapture e.default_hours e.max_hours cap := by
    rw [extract_estimate_some_of_ne_empty e body hne, hp1,
      searchFirst_append_of_match ps qs p _ _ hmiss hmatch]
  have h2 : e2.extract_estimate (Option.some body) =
      applyCapture e2.default_hours e2.max_hours cap := by
    rw [extract_estimate_some_of_ne_empty e2 body hne, hp2,
      searchFirst_append_of_match ps qs2 p _ _ hmiss hmatch]
  exact ⟨h1, by rw [h1, h2, hd, hm]⟩

/-- C7, witness: "Estimate: 2 hours Time: 7 hours" is matched by both
patterns of `estTwo`; the result equals the first pattern's value, and
dropping the second pattern (`estI`) changes nothing. -/
theorem c7_witness :
    estTwo.extract_estimate (Option.some "Estimate: 2 hours Time: 7 hours") =
      applyCapture estTwo.default_hours estTwo.max_hours (Capture.group "2") ∧
    estI.extract_estimate (Option.some "Estimate: 2 hours Time: 7 hours") =
      estTwo.extract_estimate (Option.some "Estimate: 2 hours Time: 7 hours") :=
  c7_first_match_wins estTwo estI [] [digitCapture "Time:"] []
    (digitCapture "Estimate:") "Estimate: 2 hours Time: 7 hours" (Capture.group "2")
    rfl rfl rfl rfl (by decide) (by simp) (by decide)

/-- C8: `extract_estimate` returns exactly `defaultHours` when (1) the text
is Python `None`, (2) the text strips to empty, (3) no configured pattern
matches the stripped text, and (4) the first matching pattern's captured
group parses to zero. -/
theorem c8_default_cases (e : TimeEstimator) :
    e.extract_estimate Option.none = .ok e.default_hours ∧
    (∀ body : String, (pyStrip body).isEmpty = true →
      e.extract_estimate (Option.some body) = .ok e.default_hours) ∧
    (∀ body : String, (∀ p ∈ e.patterns, p (pyStrip body) = Option.none) →
      e.extract_estimate (Option.some body) = .ok e.default_hours) ∧
    (∀ (ps qs : List PatternFn) (p : PatternFn) (body s : String),
      e.patterns = ps ++ p :: qs →
      (∀ q ∈ ps, q (pyStrip body) = Option.none) →
      p (pyStrip body) = Option.some (Capture.group s) →
      parsePyInt s = Option.some 0 →
      e.extract_estimate (Option.some body) = .ok e.default_hours) := by
  refine ⟨rfl, ?_, ?_, ?_⟩
  · intro body hb
    exact extract_estimate_some_of_empty e body hb
  · intro body hmiss
    by_cases hb : (pyStrip body).isEmpty
    · exact extract_estimate_some_of_empty e body hb
    · rw [extract_estimate_some_of_ne_empty e body (Bool.not_eq_true _ ▸ hb),
        searchFirst_eq_none e.patterns _ hmiss]
  · intro ps qs p body s hpat hmiss hmatch hzero
    by_cases hb : (pyStrip body).isEmpty
    · exact extract_estimate_some_of_empty e body hb
    · rw [extract_estimate_some_of_ne_empty e body (Bool.not_eq_true _ ▸ hb), hpat,
        searchFirst_append_of_match ps qs p _ _ hmiss hmatch]
      simp [applyCapture, hzero]

/-- C8, witness: the four default cases at concrete inputs of `estI`
(`None`, a whitespace-only text, an unmatched text, and a matched zero). -/
theorem c8_witness :
    estI.extract_estimate Option.none = .ok estI.default_hours ∧
    estI.extract_estimate (Option.some "   ") = .ok estI.default_hours ∧
    estI.extract_estimate (Option.some "no numbers here") = .ok estI.default_hours ∧
    estI.extract_estimate (Option.some "Estimate: 0 hours") = .ok estI.default_hours :=
  ⟨(c8_default_cases estI).1,
   (c8_default_cases estI).2.1 "   " (by decide),
   (c8_default_cases estI).2.2.1 "no numbers here" (by
      intro p hp
      simp only [estI, List.mem_singleton] at hp
      subst hp
      decide),
   (c8_default_cases estI).2.2.2 [] [] (digitCapture "Estimate:")
     "Estimate: 0 hours" "0" rfl (by simp) (by decide) (by decide)⟩

/-- C9, counterexample.  The claim says every output element preserves every
original field *and value* of the corresponding input record.  For an input
record that already contains an `estimated_hours` field (value 99), the
output's `estimated_hours` is the freshly extracted 3: the original value is
not preserved. -/
theorem c9_counterexample :
    estI.batch_extract
        [Entry.dict [("estimated_hours", PyValue.int 99),
                     ("body", PyValue.str "Estimate: 3 hours")]] =
      .ok [[("estimated_hours", PyValue.int 3),
            ("body", PyValue.str "Estimate: 3 hours")]] ∧
    ([("estimated_hours", PyValue.int 99), ("body", PyValue.str "Estimate: 3 hours")] :
      List (String × PyValue)).lookup "estimated_hours" = Option.some (PyValue.int 99) ∧
    PyValue.int 3 ≠ PyValue.int 99 := by
  refine ⟨rfl, rfl, ?_⟩
  intro h
  exact absurd (PyValue.int.inj h) (by decide)

/-- C9, amended: on a sequence of dict records, a successful `batch_extract`
returns a new sequence of the same length and order in which each element
preserves every original field and value except a pre-existing
`estimated_hours` field (which is overwritten); the input collection and its
records are not mutated (the output heads are fresh `dict(issue)` copies;
all data in this embedding is immutable). -/
theorem c9_amended (e : TimeEstimator) (issues : List (List (String × PyValue)))
    (out : List (List (String × PyValue)))
    (h : e.batch_extract (issues.map Entry.dict) = .ok out) :
    out.length = issues.length ∧
    ∀ (i : Nat) (k : String), k ≠ "estimated_hours" →
      (out[i]?).bind (List.lookup k) = (issues[i]?).bind (List.lookup k) := by
  induction issues generalizing out with
  | nil =>
    simp only [List.map_nil, TimeEstimator.batch_extract, Except.ok.injEq] at h
    subst h
    exact ⟨rfl, fun i k _ => rfl⟩
  | cons fields rest ih =>
    cases hx : e.extract_estimate (coerceBody (pyGetBody (Entry.dict fields))) with
    | error err =>
      simp [TimeEstimator.batch_extract, hx, dictCopy] at h
    | ok est =>
      cases hr : e.batch_extract (rest.map Entry.dict) with
      | error err =>
        simp [TimeEstimator.batch_extract, hx, hr, dictCopy] at h
      | ok results =>
        simp only [List.map_cons, TimeEstimator.batch_extract, hx, hr, dictCopy,
          Except.ok.injEq] at h
        subst h
        obtain ⟨ihlen, ihlook⟩ := ih results hr
        refine ⟨by simp [ihlen], ?_⟩
        intro i k hk
        match i with
        | 0 =>
          simpa using lookup_dictSet_ne fields "estimated_hours" k (PyValue.int est) hk
        | Nat.succ j =>
          simpa using ihlook j k hk

/-- C9, witness for the amended theorem: the `number` field of a one-record
batch survives unchanged into the enriched output. -/
theorem c9_amended_witness :
    (([[("number", PyValue.int 7), ("body", PyValue.str "Estimate: 2 hours"),
        ("estimated_hours", PyValue.int 2)]] : List (List (String × PyValue)))[0]?).bind
      (List.lookup "number") =
    (([[("number", PyValue.int 7), ("body", PyValue.str "Estimate: 2 hours")]] :
        List (List (String × PyValue)))[0]?).bind (List.lookup "number") :=
  (c9_amended estI [[("number", PyValue.int 7), ("body", PyValue.str "Estimate: 2 hours")]]
      _ rfl).2 0 "number" (by decide)

/-- C10: for every dict record, the output's `estimated_hours` field equals
the result of `extract` applied to the record's body — any pre-existing
`estimated_hours` value is overwritten in the output copy, never passed
through. -/
theorem c10_overwrites (e : TimeEstimator) (fields : List (String × PyValue))
    (rest : List Entry) (n : Int) (out : List (List (String × PyValue)))
    (hx : e.extract_estimate (coerceBody (pyGetBody (Entry.dict fields))) = .ok n)
    (hb : e.batch_extract (Entry.dict fields :: rest) = .ok out) :
    ∃ enriched tail, out = enriched :: tail ∧
      enriched.lookup "estimated_hours" = Option.some (PyValue.int n) := by
  cases hr : e.batch_extract rest with
  | error err =>
    simp [TimeEstimator.batch_extract, hx, hr, dictCopy] at hb
  | ok results =>
    simp only [TimeEstimator.batch_extract, hx, hr, dictCopy, Except.ok.injEq] at hb
    subst hb
    exact ⟨_, _, rfl, lookup_dictSet_self fields "estimated_hours" (PyValue.int n)⟩

/-- C10, witness: a record arriving with `estimated_hours = 99` and a body
extracting to 3 leaves the batch with `estimated_hours = 3`. -/
theorem c10_witness :
    ∃ enriched tail,
      ([[("estimated_hours", PyValue.int 3), ("body", PyValue.str "Estimate: 3 hours")]] :
        List (List (String × PyValue))) = enriched :: tail ∧
      enriched.lookup "estimated_hours" = Option.some (PyValue.int 3) :=
  c10_overwrites estI
    [("estimated_hours", PyValue.int 99), ("body", PyValue.str "Estimate: 3 hours")]
    [] 3 _ rfl rfl

end WeeklyPlanner
